import Mathlib

/-!
Verification of the combination-selection and save-naming logic of the
CerebellumProject repository (`cbpmodels.py`), via a shallow embedding.

The embedding models:
* the column metadata of the loaded table (`Column`, `dataColumns`);
* the `xy` filtering/validation block of `plot_variables`
  (cbpmodels.py lines 105-122), including the in-place `xy.remove(idx)`
  performed while iterating over `xy`, Python's negative-index semantics,
  and the exceptions (`TypeError`, `IndexError`, the caught
  `AttributeError`);
* `var_combinations` (`itertools.combinations(data.columns[cols], 2)`);
* the save-file naming loop and the manifest append of `save_plots`
  (lines 251-308), including the `xy is var_combinations` identity test;
* the module-level color dictionaries and `set_colors` (lines 48-84,
  124-129).
-/

namespace CerebellumProject

/-- One column of the loaded dataframe: its name and whether its dtype is
`float64` (the condition tested by `plot_variables`). -/
structure Column where
  name : String
  isFloat64 : Bool
  deriving DecidableEq

/-- A scalar Python value appearing in a requested `xy` sequence: an `int`
or a `str`. -/
inductive PyVal where
  | i (val : Int)
  | s (val : String)
  deriving DecidableEq

/-- The Python exceptions that can escape the selection operation. -/
inductive PyExn where
  | typeError
  | indexError
  deriving DecidableEq

/-- Python scalar indexing `data.columns[idx]`: non-negative indices are
positional, negative indices count from the end, anything out of range
raises `IndexError`. -/
def pyGetColumn (cols : List Column) (idx : Int) : Except PyExn Column :=
  if 0 ≤ idx then
    match cols[idx.toNat]? with
    | some c => .ok c
    | none => .error .indexError
  else
    match cols[((cols.length : Int) + idx).toNat]? with
    | some c => if 0 ≤ (cols.length : Int) + idx then .ok c else .error .indexError
    | none => .error .indexError

/-- One evaluation of the loop-body condition
`idx >= len(data.columns) or (data[data.columns[idx]].dtype != 'float64')`
of `plot_variables`. `ok true` means the entry is kept, `ok false` means
the condition held and `xy.remove(idx)` runs. A `str` entry raises
`TypeError` (comparison of `str` with `int`); a negative index below
`-len(data.columns)` raises `IndexError` from `data.columns[idx]`.
Column names of the table are distinct, so fetching `data[name]` by the
name of the column at the resolved position is the column itself. -/
def checkRef (cols : List Column) : PyVal → Except PyExn Bool
  | .s _ => .error .typeError
  | .i idx =>
    if (cols.length : Int) ≤ idx then .ok false
    else (pyGetColumn cols idx).map Column.isFloat64

/-- The `for idx in xy: ... xy.remove(idx)` loop of `plot_variables`,
embedded with Python's iterator semantics: the iterator keeps a cursor
`i` into the (mutating) list, and `list.remove` deletes the first
occurrence of the value, so after a removal the element that slides into
position `i` is never examined. `fuel` bounds the recursion; the loop
exits once the cursor passes the end of the current list, which happens
after at most `length + 1` steps, so the fuel-exhausted branch is
unreachable from `filterLoop`. Returns the uncaught exception (if any)
and the final state of the caller's list. -/
def filterLoopF (cols : List Column) : Nat → List PyVal → Nat → Option PyExn × List PyVal
  | 0, xs, _ => (none, xs)
  | fuel + 1, xs, i =>
    if h : i < xs.length then
      match checkRef cols xs[i] with
      | .error e => (some e, xs)
      | .ok true => filterLoopF cols fuel xs (i + 1)
      | .ok false => filterLoopF cols fuel (xs.erase xs[i]) (i + 1)
    else (none, xs)

/-- The filtering loop of `plot_variables`, started at cursor 0 with
sufficient fuel. -/
def filterLoop (cols : List Column) (xs : List PyVal) : Option PyExn × List PyVal :=
  filterLoopF cols (xs.length + 1) xs 0

/-- `itertools.combinations(names, 2)`: every element paired with every
later element, earlier elements first. -/
def combinations2 {α : Type} : List α → List (α × α)
  | [] => []
  | x :: rest => (rest.map (fun y => (x, y))) ++ combinations2 rest

/-- Fancy indexing `data.columns[cols]` with a list: every entry must be
an in-range integer (negative indices count from the end); a `str` entry
or an out-of-range entry raises `IndexError` (numpy: arrays used as
indices must be of integer type / index out of bounds). -/
def pandasIndexList (cols : List Column) : List PyVal → Except PyExn (List String)
  | [] => .ok []
  | v :: rest =>
    match v with
    | .s _ => .error .indexError
    | .i idx =>
      match pyGetColumn cols idx with
      | .error e => .error e
      | .ok c =>
        match pandasIndexList cols rest with
        | .error e => .error e
        | .ok names => .ok (c.name :: names)

/-- `var_combinations(cols)` of cbpmodels.py (lines 57-67):
`tuple(combinations(data.columns[cols], 2))`. -/
def var_combinations (cols : List Column) (vs : List PyVal) : Except PyExn (List (String × String)) :=
  match pandasIndexList cols vs with
  | .error e => .error e
  | .ok names => .ok (combinations2 names)

/-- The default combination `[4, 3, 1]` hard-coded in `plot_variables`. -/
def defaultRefs : List PyVal := [.i 4, .i 3, .i 1]

/-- Result of the `xy` resolution block of `plot_variables`:
either a list of variable pairs (`usedFallback` is true exactly when the
`except AttributeError` branch ran, which prints the diagnostic message
and substitutes the default combination `[4, 3, 1]`), or the raw `xy`
passed through untouched (no `int` in it), or an uncaught exception. -/
inductive SelectOutcome where
  | pairs (ps : List (String × String)) (usedFallback : Bool)
  | raw (xs : List PyVal)
  | exn (e : PyExn)
  deriving DecidableEq

/-- Whether an outcome is an uncaught exception. -/
def SelectOutcome.isExn : SelectOutcome → Bool
  | .exn _ => true
  | _ => false

/-- The fallback `xy = var_combinations([4, 3, 1])` (also used for
`xy=None`). `fellBack` records whether the diagnostic branch ran. -/
def mkDefault (cols : List Column) (fellBack : Bool) : SelectOutcome :=
  match var_combinations cols defaultRefs with
  | .ok ps => .pairs ps fellBack
  | .error e => .exn e

/-- The `xy` resolution of `plot_variables` (lines 107-122) for a `list`
argument containing at least one `int`: run the remove-while-iterating
filter loop; if at least 2 entries remain, call `var_combinations` on the
remaining entries; otherwise raise `AttributeError`, which is caught and
replaced by the default combination (printing the diagnostic).
Returns the outcome together with the final state of the caller's list
(which the loop mutates in place). -/
def pvSelectList (cols : List Column) (xs : List PyVal) : SelectOutcome × List PyVal :=
  match filterLoop cols xs with
  | (some e, st) => (.exn e, st)
  | (none, st) =>
    if 2 ≤ st.length then
      match var_combinations cols st with
      | .ok ps => (.pairs ps false, st)
      | .error e => (.exn e, st)
    else
      (mkDefault cols true, st)

/-- The guard `any(isinstance(n, (int)) for n in xy)`. -/
def anyInt (xs : List PyVal) : Bool :=
  xs.any (fun v => match v with | .i _ => true | .s _ => false)

/-- The filtering loop run over a `tuple` argument: the tuple cannot be
mutated, so the first entry that satisfies the removal condition makes
`xy.remove(idx)` raise `AttributeError` (`ok true`); exceptions raised
by the condition itself propagate first. `ok false` means every entry
was examined and kept. -/
def tupleScan (cols : List Column) : List PyVal → Except PyExn Bool
  | [] => .ok false
  | v :: rest =>
    match checkRef cols v with
    | .error e => .error e
    | .ok true => tupleScan cols rest
    | .ok false => .ok true

/-- The `xy` argument of `plot_variables`: `None`, a list of scalars, a
tuple of scalars, or a sequence of already-formed variable pairs. -/
inductive XYArg where
  | noneArg
  | listArg (xs : List PyVal)
  | tupleArg (xs : List PyVal)
  | pairsArg (ps : List (String × String))

/-- The whole `xy` resolution of `plot_variables` (lines 105-122),
returning the resolved value and the final state of the argument.
For a tuple that survives the scan with ≥ 2 entries, the call
`var_combinations(xy)` performs `data.columns[tuple]`, a
multi-dimensional fancy index on a 1-d index, which raises `IndexError`.
A `pairsArg` (no `int` inside) bypasses the block entirely. -/
def pvSelect (cols : List Column) : XYArg → SelectOutcome × XYArg
  | .noneArg => (mkDefault cols false, .noneArg)
  | .pairsArg ps => (.pairs ps false, .pairsArg ps)
  | .listArg xs =>
    if anyInt xs then
      let r := pvSelectList cols xs
      (r.1, .listArg r.2)
    else (.raw xs, .listArg xs)
  | .tupleArg xs =>
    if anyInt xs then
      match tupleScan cols xs with
      | .error e => (.exn e, .tupleArg xs)
      | .ok true => (mkDefault cols true, .tupleArg xs)
      | .ok false =>
        if 2 ≤ xs.length then (.exn .indexError, .tupleArg xs)
        else (mkDefault cols true, .tupleArg xs)
    else (.raw xs, .tupleArg xs)

/-- Modelled from the spec: the CSV data file (`all_species_values.csv`)
is not part of the source snapshot, so the column metadata of the loaded
table is reconstructed from the spec's data model and the source's own
uses of it: after the load the table has the renamed columns in CSV
order, `Species` and `Taxon` hold strings (non-numeric), the four
morphology measurements are `float64`, index 2 is `Cerebrum Surface
Area` (the sister script's comment) and the default combination
`[4, 3, 1]` selects `Cerebrum Volume`, `Cerebellum Volume`,
`Cerebellum Surface Area`. -/
def dataColumns : List Column :=
  [⟨"Species", false⟩,
   ⟨"Cerebellum Surface Area", true⟩,
   ⟨"Cerebrum Surface Area", true⟩,
   ⟨"Cerebellum Volume", true⟩,
   ⟨"Cerebrum Volume", true⟩,
   ⟨"Taxon", false⟩]

/-- A requested ref is valid in the sense of the spec: an integer index,
in range (non-negative), referring to a `float64` column. -/
def isValidRef (cols : List Column) : PyVal → Bool
  | .i idx => decide (0 ≤ idx) && ((cols[idx.toNat]?.map Column.isFloat64).getD false)
  | .s _ => false

/-- A requested ref that is an integer index in range (non-negative),
numeric or not. -/
def isIntRef (cols : List Column) : PyVal → Bool
  | .i idx => decide (0 ≤ idx) && decide (idx < (cols.length : Int))
  | .s _ => false

/-- The column name a valid ref points at. -/
def refName (cols : List Column) : PyVal → String
  | .i idx => ((cols[idx.toNat]?.map Column.name).getD "")
  | .s v => v

/-- Modelled from the spec's order requirement: all unordered
2-combinations of a list, enumerated in the lexicographic order induced
by the positions of the elements — the pair of positions `(i, j)` with
`i < j` runs in lexicographic order, and the pair keeps the orientation
`(earlier, later)`. -/
def lexPairs {α : Type} (xs : List α) : List (α × α) :=
  xs.enum.flatMap (fun p => (xs.drop (p.1 + 1)).map (fun b => (p.2, b)))

/-! ### Save-path allocation (`save_plots`, cbpmodels.py lines 237-308) -/

/-- The test `xy is var_combinations` in `save_plots`: a Python identity
comparison between the tuple `xy` and the function object
`var_combinations`, which is `False` for every tuple argument. -/
def xyIsDefaultCheck (_xy : List (String × String)) : Bool := false

/-- Directory name chosen by the `logged` flag. -/
def saveFolder (logged : Bool) : String :=
  if logged then "Saved Log Plots" else "Saved Simple Plots"

/-- The word distinguishing the two save categories in every name. -/
def plotWord (logged : Bool) : String :=
  if logged then "Log" else "Simple"

/-- Descriptor used by the (unreachable) default branch of `save_plots`. -/
def defaultDesc (logged : Bool) : String :=
  "Default " ++ plotWord logged ++ " Plots"

/-- Descriptor used by the non-default branch:
`f'{len(xy)} Simple Plot(s)'` resp. `f'{len(xy)} Log Plot(s)'`. -/
def countDesc (logged : Bool) (n : Nat) : String :=
  toString n ++ " " ++ plotWord logged ++ " Plot(s)"

/-- The relative path `f'{folder}/{descriptor} - #{png_id:d}.png'`
tested by `os.path.exists` and written by `figure.savefig`. -/
def pngPath (logged : Bool) (desc : String) (n : Nat) : String :=
  saveFolder logged ++ "/" ++ desc ++ " - #" ++ toString n ++ ".png"

/-- The `png_id` search loop of `save_plots`:
`png_id = 1; while os.path.exists(name(png_id)): png_id += 1`.
`fuel` bounds the loop; `existing.length + 1` suffices because the
candidate names are pairwise distinct, so at most `existing.length` of
them can be present. -/
def nextPngIdAux (existing : List String) (mkName : Nat → String) : Nat → Nat → Nat
  | 0, id => id
  | fuel + 1, id => if mkName id ∈ existing then nextPngIdAux existing mkName fuel (id + 1) else id

/-- The `png_id` chosen by `save_plots` given the directory contents. -/
def nextPngId (existing : List String) (mkName : Nat → String) : Nat :=
  nextPngIdAux existing mkName (existing.length + 1) 1

/-- The single-quote character used by Python `str` on a tuple of
strings. -/
def singleQuote : String := String.mk [Char.ofNat 39]

/-- Python `str` of a pair of strings, as written into the manifest by
the join over `str(x) for x in xy`: the pair rendered as a quoted tuple. -/
def pyStrPair (p : String × String) : String :=
  "(" ++ singleQuote ++ p.1 ++ singleQuote ++ ", " ++ singleQuote ++ p.2 ++ singleQuote ++ ")"

/-- The single chunk of text `save_plots` writes to the category's
manifest file (`SIMPLE_PLOT_DETAILS.txt` resp. `LOG_PLOT_DETAILS.txt`);
`now` stands for `datetime.now().strftime(...)`. The two branches of the
source format the middle slightly differently. -/
def manifestLine (logged : Bool) (xy : List (String × String)) (pngId : Nat) (now : String) : String :=
  if logged then
    countDesc true xy.length ++ " - #" ++ toString pngId ++
    "\n" ++ String.intercalate "\n" (xy.map pyStrPair) ++ "\n" ++
    "- Figure Created on " ++ now ++ "\n\n"
  else
    countDesc false xy.length ++ " - #" ++ toString pngId ++
    " - " ++ String.intercalate "\n" (xy.map pyStrPair) ++ "\n" ++
    " - Figure Created on " ++ now ++ "\n\n"

/-- Mode in which a file is opened for writing. -/
inductive OpenMode where
  | append
  | truncate
  deriving DecidableEq

/-- A single `write` on a file opened in the given mode: append mode adds
the chunk after the existing content, truncate mode replaces it. -/
def openAndWrite (mode : OpenMode) (old : List String) (chunk : String) : List String :=
  match mode with
  | .append => old ++ [chunk]
  | .truncate => [chunk]

/-- The mode `save_plots` opens the manifest with: `open(..., 'a')`. -/
def manifestOpenMode : OpenMode := .append

/-- State of one category's save directory: the png paths present and the
chunks of the manifest file in file order. -/
structure DirState where
  files : List String
  manifest : List String
  deriving DecidableEq

/-- What one call allocates: the base file name, the sequence number and
the manifest chunk. -/
structure SavePlan where
  fileName : String
  pngId : Nat
  manifestChunk : String
  deriving DecidableEq

/-- One call of `save_plots` (the naming and manifest logic): pick the
descriptor (the `xy is var_combinations` branch never fires), find the
first free `png_id`, save the figure under that path, and append one
chunk to the category's manifest. -/
def save_plots_step (logged : Bool) (xy : List (String × String)) (now : String)
    (d : DirState) : SavePlan × DirState :=
  let desc := if xyIsDefaultCheck xy then defaultDesc logged else countDesc logged xy.length
  let id := nextPngId d.files (fun n => pngPath logged desc n)
  let chunk := manifestLine logged xy id now
  (⟨desc ++ " - #" ++ toString id ++ ".png", id, chunk⟩,
   ⟨d.files ++ [pngPath logged desc id], openAndWrite manifestOpenMode d.manifest chunk⟩)

/-- A sequence of `save_plots` calls against one category directory. -/
def runSaves (logged : Bool) : List (List (String × String) × String) → DirState → DirState
  | [], d => d
  | (xy, now) :: rest, d => runSaves logged rest (save_plots_step logged xy now d).2

/-! ### Module-level color state (`DEFAULT_COLORS`, `new_defaults`,
`set_colors`, and the `colors` handling of `plot_variables`) -/

/-- A Python `dict` of species to colors, as an insertion-ordered
association list. -/
abbrev ColorMap := List (String × String)

/-- Python `d[k] = v`: overwrite in place if the key is present
(keeping its position), else append. -/
def dictSet (d : ColorMap) (k v : String) : ColorMap :=
  if d.any (fun p => p.1 == k) then
    d.map (fun p => if p.1 == k then (k, v) else p)
  else d ++ [(k, v)]

/-- Python `d.update(news)`: set every key of `news` in order. -/
def dictUpdate (d news : ColorMap) : ColorMap :=
  news.foldl (fun acc p => dictSet acc p.1 p.2) d

/-- Python `d.get`-style lookup (first matching key). -/
def dictGet (d : ColorMap) (k : String) : Option String :=
  (d.find? (fun p => p.1 == k)).map Prod.snd

/-- Whether a key occurs in a map. -/
def dictHasKey (d : ColorMap) (k : String) : Bool :=
  d.any (fun p => p.1 == k)

/-- The module constant `DEFAULT_COLORS`. -/
def DEFAULT_COLORS : ColorMap :=
  [("Hominidae", "#7f48b5"),
   ("Hylobatidae", "#c195ed"),
   ("Cercopithecidae", "#f0bb3e"),
   ("Platyrrhini", "#f2e3bd")]

/-- The mutable module-level state: `new_defaults`
(initially `DEFAULT_COLORS.copy()`). -/
structure ModuleColorState where
  new_defaults : ColorMap
  deriving DecidableEq

/-- `set_colors(new_colors)` (lines 70-84): `new_defaults.update(new_colors)`
mutates the module state and returns it. -/
def set_colors (st : ModuleColorState) (new_colors : ColorMap) : ColorMap × ModuleColorState :=
  let d := dictUpdate st.new_defaults new_colors
  (d, ⟨d⟩)

/-- The `colors` handling of `plot_variables` (lines 124-129): `None`
binds the module defaults; an explicit argument is merged into a copy
(`def_copy = new_defaults.copy(); def_copy.update(colors)`), leaving the
module state untouched. Returns the color map used for the plot and the
module state after the call. -/
def resolveColors (st : ModuleColorState) (colors : Option ColorMap) : ColorMap × ModuleColorState :=
  match colors with
  | none => (st.new_defaults, st)
  | some cs => (dictUpdate st.new_defaults cs, st)

/-- The pairs produced by the default combination
`var_combinations([4, 3, 1])` on the loaded table. -/
def defaultXY : List (String × String) :=
  match var_combinations dataColumns defaultRefs with
  | .ok ps => ps
  | .error _ => []

/-! ### Helper lemmas about the selection embedding -/

/-- Scalar indexing with a non-negative in-range index succeeds. -/
theorem pyGetColumn_pos {cols : List Column} {idx : Int} {c : Column}
    (h0 : 0 ≤ idx) (hc : cols[idx.toNat]? = some c) :
    pyGetColumn cols idx = .ok c := by
  simp [pyGetColumn, h0, hc]

/-- A valid ref (in-range, float64) passes the loop condition. -/
theorem checkRef_of_valid {cols : List Column} {v : PyVal}
    (hv : isValidRef cols v = true) : checkRef cols v = .ok true := by
  cases v with
  | s val => simp [isValidRef] at hv
  | i idx =>
    simp only [isValidRef, Bool.and_eq_true, decide_eq_true_eq] at hv
    obtain ⟨h0, hget⟩ := hv
    cases hc : cols[idx.toNat]? with
    | none => rw [hc] at hget; simp at hget
    | some c =>
      rw [hc] at hget
      simp only [Option.map_some', Option.getD_some] at hget
      have hlt : idx.toNat < cols.length := (List.getElem?_eq_some_iff.mp hc).1
      have hnle : ¬ ((cols.length : Int) ≤ idx) := by omega
      simp [checkRef, hnle, pyGetColumn_pos h0 hc, Except.map, hget]

/-- On a list of valid refs the filtering loop removes nothing and raises
nothing, whatever the fuel and the cursor. -/
theorem filterLoopF_all_valid {cols : List Column} {xs : List PyVal}
    (hall : ∀ v ∈ xs, isValidRef cols v = true) :
    ∀ fuel i, filterLoopF cols fuel xs i = (none, xs) := by
  intro fuel
  induction fuel with
  | zero => intro i; rfl
  | succ fuel ih =>
    intro i
    rw [filterLoopF]
    split
    · rename_i h
      rw [checkRef_of_valid (hall _ (List.getElem_mem h))]
      exact ih (i + 1)
    · rfl

/-- On a list of valid refs the filtering loop is the identity. -/
theorem filterLoop_all_valid {cols : List Column} {xs : List PyVal}
    (hall : ∀ v ∈ xs, isValidRef cols v = true) :
    filterLoop cols xs = (none, xs) :=
  filterLoopF_all_valid hall (xs.length + 1) 0

/-- Fancy indexing over valid refs yields exactly their column names. -/
theorem pandasIndexList_all_valid {cols : List Column} :
    ∀ {xs : List PyVal}, (∀ v ∈ xs, isValidRef cols v = true) →
    pandasIndexList cols xs = .ok (xs.map (refName cols)) := by
  intro xs
  induction xs with
  | nil => intro _; rfl
  | cons v rest ih =>
    intro hall
    have hv := hall v (by simp)
    cases v with
    | s val => simp [isValidRef] at hv
    | i idx =>
      simp only [isValidRef, Bool.and_eq_true, decide_eq_true_eq] at hv
      obtain ⟨h0, hget⟩ := hv
      cases hc : cols[idx.toNat]? with
      | none => rw [hc] at hget; simp at hget
      | some c =>
        simp only [pandasIndexList, pyGetColumn_pos h0 hc,
          ih (fun w hw => hall w (by simp [hw]))]
        simp [refName, hc]

/-- Shifting the starting index of an enumeration by one shifts every
position by one. -/
theorem enumFrom_succ_eq_map {α : Type} (l : List α) :
    ∀ n, l.enumFrom (n + 1) = (l.enumFrom n).map (fun p => (p.1 + 1, p.2)) := by
  induction l with
  | nil => intro n; rfl
  | cons a as ih =>
    intro n
    simp only [List.enumFrom_cons, List.map_cons]
    rw [ih (n + 1)]

/-- The source's `itertools.combinations(_, 2)` enumerates exactly the
position-lexicographic pairs of the spec. -/
theorem combinations2_eq_lexPairs {α : Type} : ∀ xs : List α, combinations2 xs = lexPairs xs := by
  intro xs
  induction xs with
  | nil => rfl
  | cons x rest ih =>
    simp only [combinations2, lexPairs]
    rw [List.enum_cons, List.flatMap_cons]
    rw [show List.enumFrom 1 rest = rest.enum.map (fun p => (p.1 + 1, p.2)) from
      enumFrom_succ_eq_map rest 0]
    rw [List.flatMap_map]
    have hfun : (fun p : ℕ × α => ((x :: rest).drop (p.1 + 1 + 1)).map (fun b => (p.2, b)))
        = (fun p : ℕ × α => (rest.drop (p.1 + 1)).map (fun b => (p.2, b))) := by
      funext p
      rw [List.drop_succ_cons]
    rw [hfun, ih, lexPairs]
    simp

/-- The loop condition never raises on an in-range integer ref. -/
theorem checkRef_int {cols : List Column} {v : PyVal}
    (hv : isIntRef cols v = true) : ∃ b, checkRef cols v = .ok b := by
  cases v with
  | s val => simp [isIntRef] at hv
  | i idx =>
    simp only [isIntRef, Bool.and_eq_true, decide_eq_true_eq] at hv
    obtain ⟨h0, hlt⟩ := hv
    have hlt2 : idx.toNat < cols.length := by omega
    have hc : cols[idx.toNat]? = some cols[idx.toNat] := List.getElem?_eq_getElem hlt2
    have hnle : ¬ ((cols.length : Int) ≤ idx) := by omega
    exact ⟨cols[idx.toNat].isFloat64, by
      simp [checkRef, hnle, pyGetColumn_pos h0 hc, Except.map]⟩

/-- On a list of in-range integer refs the loop never raises, and the
remaining entries are still in-range integer refs. -/
theorem filterLoopF_int {cols : List Column} :
    ∀ fuel (xs : List PyVal) i, (∀ v ∈ xs, isIntRef cols v = true) →
    ∃ st, filterLoopF cols fuel xs i = (none, st) ∧ ∀ v ∈ st, isIntRef cols v = true := by
  intro fuel
  induction fuel with
  | zero => intro xs i hall; exact ⟨xs, rfl, hall⟩
  | succ fuel ih =>
    intro xs i hall
    by_cases h : i < xs.length
    · rw [filterLoopF, dif_pos h]
      obtain ⟨b, hb⟩ := checkRef_int (hall _ (List.getElem_mem h))
      rw [hb]
      cases b
      · exact ih (xs.erase xs[i]) (i + 1) (fun v hv => hall v (List.mem_of_mem_erase hv))
      · exact ih xs (i + 1) hall
    · rw [filterLoopF, dif_neg h]
      exact ⟨xs, rfl, hall⟩

/-- Fancy indexing never raises on in-range integer refs. -/
theorem pandasIndexList_int {cols : List Column} :
    ∀ {xs : List PyVal}, (∀ v ∈ xs, isIntRef cols v = true) →
    ∃ names, pandasIndexList cols xs = .ok names := by
  intro xs
  induction xs with
  | nil => intro _; exact ⟨[], rfl⟩
  | cons v rest ih =>
    intro hall
    have hv := hall v (by simp)
    cases v with
    | s val => simp [isIntRef] at hv
    | i idx =>
      simp only [isIntRef, Bool.and_eq_true, decide_eq_true_eq] at hv
      obtain ⟨h0, hlt⟩ := hv
      have hlt2 : idx.toNat < cols.length := by omega
      have hc : cols[idx.toNat]? = some cols[idx.toNat] := List.getElem?_eq_getElem hlt2
      obtain ⟨names, hn⟩ := ih (fun w hw => hall w (by simp [hw]))
      exact ⟨cols[idx.toNat].name :: names, by
        simp [pandasIndexList, pyGetColumn_pos h0 hc, hn]⟩

/-- With at least 5 columns the default combination `[4, 3, 1]` resolves
without an exception. -/
theorem mkDefault_ok {cols : List Column} (hlen : 4 < cols.length) (b : Bool) :
    ∃ ps, mkDefault cols b = .pairs ps b := by
  have hall : ∀ v ∈ defaultRefs, isIntRef cols v = true := by
    intro v hv
    simp only [defaultRefs, List.mem_cons, List.not_mem_nil, or_false] at hv
    rcases hv with h | h | h <;> subst h <;>
      simp only [isIntRef, Bool.and_eq_true, decide_eq_true_eq] <;>
      constructor <;> omega
  obtain ⟨names, hn⟩ := pandasIndexList_int hall
  exact ⟨combinations2 names, by simp [mkDefault, var_combinations, hn]⟩

/-! ### Claims C1-C5: the combination selector -/

/-- C1 (code bug witnessed): on the request `[0, 5, 4, 3]` exactly 2
indices are valid (4 and 3; columns 0 `Species` and 5 `Taxon` are not
`float64`), so the claim requires C(2,2) = 1 pair whose members are both
numeric. The remove-while-iterating loop removes index 0 but then skips
index 5, so the code returns 3 pairs, two of which contain the
non-numeric column `Taxon`. -/
theorem claim_C1_failing_eval :
    pvSelectList dataColumns [.i 0, .i 5, .i 4, .i 3]
      = (.pairs [("Taxon", "Cerebrum Volume"), ("Taxon", "Cerebellum Volume"),
                 ("Cerebrum Volume", "Cerebellum Volume")] false, [.i 5, .i 4, .i 3])
  ∧ ([PyVal.i 0, .i 5, .i 4, .i 3].filter (isValidRef dataColumns)).length = 2
  ∧ isValidRef dataColumns (.i 5) = false
  ∧ Nat.choose 2 2 = 1 := by
  exact ⟨by decide, by decide, by decide, by decide⟩

/-- C2 (code bug witnessed): the request `[0, 0, 3]` has only 1 valid
index, so the claim requires the whole request to be rejected in favour
of the default `[4, 3, 1]` with a diagnostic. Instead the loop removes
only the first `0` and skips the second, two entries remain, and the code
returns the pair (`Species`, `Cerebellum Volume`) with `usedFallback =
false` — no fallback, no diagnostic, and a non-numeric column plotted. -/
theorem claim_C2_failing_eval :
    pvSelectList dataColumns [.i 0, .i 0, .i 3]
      = (.pairs [("Species", "Cerebellum Volume")] false, [.i 0, .i 3])
  ∧ ([PyVal.i 0, .i 0, .i 3].filter (isValidRef dataColumns)).length = 1 := by
  exact ⟨by decide, by decide⟩

/-- C3 (counterexample): the malformed request `[4, "x"]` (a mix of
integers and strings) does not flow into the rejection/fallback
mechanism: the comparison of `"x"` with `len(data.columns)` raises an
uncaught `TypeError`. -/
theorem claim_C3_counterexample :
    (pvSelectList dataColumns [.i 4, .s "x"]).1 = .exn .typeError := by
  decide

/-- C3 (amended): no exception escapes the selection when the requested
sequence is a list of integer indices each with 0 ≤ i < number of
columns (such entries are non-numeric at worst, never out of range);
other malformed inputs can raise (mixed int/str: `TypeError`; an index
below `-len` or an out-of-range index that survives the removal loop:
`IndexError`). -/
theorem claim_C3_amended (cols : List Column) (xs : List PyVal)
    (hlen : 4 < cols.length) (hxs : ∀ v ∈ xs, isIntRef cols v = true) :
    (pvSelectList cols xs).1.isExn = false := by
  obtain ⟨st, hloop, hst⟩ := filterLoopF_int (xs.length + 1) xs 0 hxs
  simp only [pvSelectList, filterLoop, hloop]
  by_cases h2 : 2 ≤ st.length
  · rw [if_pos h2]
    obtain ⟨names, hn⟩ := pandasIndexList_int hst
    simp [var_combinations, hn, SelectOutcome.isExn]
  · rw [if_neg h2]
    obtain ⟨ps, hp⟩ := mkDefault_ok hlen true
    simp [hp, SelectOutcome.isExn]

/-- C3 (witness): a concrete in-range request (with non-numeric entries)
raises nothing. -/
theorem claim_C3_witness :
    (pvSelectList dataColumns [.i 0, .i 5, .i 2]).1.isExn = false :=
  claim_C3_amended dataColumns [.i 0, .i 5, .i 2] (by decide) (by decide)

/-- C4 (counterexample): the selection is not side-effect-free — it
mutates the caller's requested-index list in place. After requesting
`[0, 3, 4]` the caller's list has become `[3, 4]`. -/
theorem claim_C4_counterexample :
    (pvSelectList dataColumns [.i 0, .i 3, .i 4]).2 ≠ [PyVal.i 0, .i 3, .i 4] := by
  decide

/-- C4 (amended): the selection is deterministic in the values of its
inputs (it is a pure function of the request and the column metadata in
this embedding), and it leaves the caller's sequence unmodified exactly
when every requested ref is valid; when some ref is invalid, the loop
removes entries from the caller's list in place. -/
theorem claim_C4_amended (cols : List Column) (xs : List PyVal)
    (hall : ∀ v ∈ xs, isValidRef cols v = true) :
    (pvSelectList cols xs).2 = xs := by
  simp only [pvSelectList, filterLoop_all_valid hall]
  by_cases h2 : 2 ≤ xs.length
  · rw [if_pos h2]
    cases hvc : var_combinations cols xs with
    | ok ps => rfl
    | error e => rfl
  · rw [if_neg h2]

/-- C4 (witness): an all-valid request leaves the caller's list intact. -/
theorem claim_C4_witness :
    (pvSelectList dataColumns [.i 4, .i 3]).2 = [PyVal.i 4, .i 3] :=
  claim_C4_amended dataColumns [.i 4, .i 3] (by decide)

/-- C5: for every request made of at least two valid column refs, the
pairs are exactly the 2-combinations of the refs' column names in the
lexicographic order induced by the retained relative order of the refs
(pair (i, j), i < j, runs in lexicographic order of positions), with no
fallback. -/
theorem claim_C5_pair_order (cols : List Column) (xs : List PyVal)
    (hall : ∀ v ∈ xs, isValidRef cols v = true) (h2 : 2 ≤ xs.length) :
    (pvSelectList cols xs).1 = .pairs (lexPairs (xs.map (refName cols))) false := by
  simp only [pvSelectList, filterLoop_all_valid hall]
  rw [if_pos h2]
  simp [var_combinations, pandasIndexList_all_valid hall, combinations2_eq_lexPairs]

/-- C5 (witness): the default request `[4, 3, 1]` produces the three
pairs in lexicographic order of positions. -/
theorem claim_C5_witness :
    (pvSelectList dataColumns [.i 4, .i 3, .i 1]).1
      = .pairs (lexPairs ([PyVal.i 4, .i 3, .i 1].map (refName dataColumns))) false :=
  claim_C5_pair_order dataColumns [.i 4, .i 3, .i 1] (by decide) (by decide)

/-! ### Helper lemmas about the save-path allocator -/

/-- The id search never goes below its starting point. -/
theorem nextPngIdAux_le (existing : List String) (mkName : Nat → String) :
    ∀ fuel id, id ≤ nextPngIdAux existing mkName fuel id := by
  intro fuel
  induction fuel with
  | zero => intro id; exact le_refl id
  | succ fuel ih =>
    intro id
    rw [nextPngIdAux]
    split
    · exact le_trans (by omega) (ih (id + 1))
    · exact le_refl id

/-- Every id from the start up to (excluding) the chosen id names an
existing file. -/
theorem nextPngIdAux_below_used (existing : List String) (mkName : Nat → String) :
    ∀ fuel id m, id ≤ m → m < nextPngIdAux existing mkName fuel id → mkName m ∈ existing := by
  intro fuel
  induction fuel with
  | zero =>
    intro id m h1 h2
    simp only [nextPngIdAux] at h2
    omega
  | succ fuel ih =>
    intro id m h1 h2
    rw [nextPngIdAux] at h2
    by_cases hm : mkName id ∈ existing
    · rw [if_pos hm] at h2
      rcases eq_or_lt_of_le h1 with heq | hlt
      · subst heq; exact hm
      · exact ih (id + 1) m (by omega) h2
    · rw [if_neg hm] at h2
      omega

/-- If some id within the fuel's reach is free, the loop's answer is
free. -/
theorem nextPngIdAux_free (existing : List String) (mkName : Nat → String) :
    ∀ fuel id, (∃ j, id ≤ j ∧ j ≤ id + fuel ∧ mkName j ∉ existing) →
    mkName (nextPngIdAux existing mkName fuel id) ∉ existing := by
  intro fuel
  induction fuel with
  | zero =>
    rintro id ⟨j, hj1, hj2, hj3⟩
    have hj : j = id := by omega
    subst hj
    simpa [nextPngIdAux] using hj3
  | succ fuel ih =>
    rintro id ⟨j, hj1, hj2, hj3⟩
    rw [nextPngIdAux]
    by_cases hm : mkName id ∈ existing
    · rw [if_pos hm]
      apply ih (id + 1)
      have hne : j ≠ id := by
        intro hj; subst hj; exact hj3 hm
      exact ⟨j, by omega, by omega, hj3⟩
    · rw [if_neg hm]
      exact hm

/-- Among the first `length + 2` candidate ids at least one name is not
in the directory, provided the candidate names are pairwise distinct on
that range. -/
theorem exists_free_id (existing : List String) (mkName : Nat → String)
    (hinj : ∀ m ∈ Finset.Icc 1 (existing.length + 2),
      ∀ n ∈ Finset.Icc 1 (existing.length + 2), mkName m = mkName n → m = n) :
    ∃ j, 1 ≤ j ∧ j ≤ existing.length + 2 ∧ mkName j ∉ existing := by
  by_contra hcon
  push_neg at hcon
  have hcard : (Finset.Icc 1 (existing.length + 2)).card ≤ existing.toFinset.card := by
    apply Finset.card_le_card_of_injOn mkName
    · intro a ha
      rw [List.mem_toFinset]
      rw [Finset.mem_Icc] at ha
      exact hcon a ha.1 ha.2
    · intro a ha b hb hab
      exact hinj a (Finset.mem_coe.mp ha) b (Finset.mem_coe.mp hb) hab
  have h1 : (Finset.Icc 1 (existing.length + 2)).card = existing.length + 2 := by
    rw [Nat.card_Icc]
    omega
  have h2 := List.toFinset_card_le existing
  omega

/-- The id chosen by the `while os.path.exists` loop is the least
positive one whose name is not already present. -/
theorem nextPngId_is_least (existing : List String) (mkName : Nat → String)
    (hinj : ∀ m ∈ Finset.Icc 1 (existing.length + 2),
      ∀ n ∈ Finset.Icc 1 (existing.length + 2), mkName m = mkName n → m = n) :
    mkName (nextPngId existing mkName) ∉ existing
  ∧ 1 ≤ nextPngId existing mkName
  ∧ ∀ m, 1 ≤ m → m < nextPngId existing mkName → mkName m ∈ existing := by
  refine ⟨?_, nextPngIdAux_le existing mkName (existing.length + 1) 1,
    fun m h1 h2 => nextPngIdAux_below_used existing mkName (existing.length + 1) 1 m h1 h2⟩
  apply nextPngIdAux_free
  obtain ⟨j, hj1, hj2, hj3⟩ := exists_free_id existing mkName hinj
  exact ⟨j, hj1, by omega, hj3⟩

/-! ### Claims C6-C9: the save-path allocator -/

/-- C6: for every save allocation, the chosen sequence number is the
smallest positive integer not already used by an existing file of that
exact descriptor in the category's directory: the allocated name is
absent and every smaller positive id's name is present. (Hypothesis: the
candidate file names for distinct ids in the scanned range are distinct,
which holds for decimal numbering.) -/
theorem claim_C6_smallest_unused (logged : Bool) (xy : List (String × String))
    (now : String) (d : DirState)
    (hinj : ∀ m ∈ Finset.Icc 1 (d.files.length + 2),
      ∀ n ∈ Finset.Icc 1 (d.files.length + 2),
      pngPath logged (countDesc logged xy.length) m
        = pngPath logged (countDesc logged xy.length) n → m = n) :
    pngPath logged (countDesc logged xy.length) ((save_plots_step logged xy now d).1.pngId)
      ∉ d.files
  ∧ 1 ≤ (save_plots_step logged xy now d).1.pngId
  ∧ ∀ m, 1 ≤ m → m < (save_plots_step logged xy now d).1.pngId →
      pngPath logged (countDesc logged xy.length) m ∈ d.files :=
  nextPngId_is_least d.files (fun n => pngPath logged (countDesc logged xy.length) n) hinj

/-- C6 (witness): with files #1 and #3 present for descriptor
`3 Simple Plot(s)` (the gap scenario of the claim), the next allocation
picks sequence number 2, and its name is not among the existing ones. -/
theorem claim_C6_witness :
    ((save_plots_step false [("a", "b"), ("c", "d"), ("e", "f")] "t"
        ⟨["Saved Simple Plots/3 Simple Plot(s) - #1.png",
          "Saved Simple Plots/3 Simple Plot(s) - #3.png"], []⟩).1.pngId = 2)
  ∧ pngPath false (countDesc false 3)
      ((save_plots_step false [("a", "b"), ("c", "d"), ("e", "f")] "t"
        ⟨["Saved Simple Plots/3 Simple Plot(s) - #1.png",
          "Saved Simple Plots/3 Simple Plot(s) - #3.png"], []⟩).1.pngId)
      ∉ (DirState.mk ["Saved Simple Plots/3 Simple Plot(s) - #1.png",
          "Saved Simple Plots/3 Simple Plot(s) - #3.png"] []).files :=
  ⟨by decide,
   (claim_C6_smallest_unused false [("a", "b"), ("c", "d"), ("e", "f")] "t"
      ⟨["Saved Simple Plots/3 Simple Plot(s) - #1.png",
        "Saved Simple Plots/3 Simple Plot(s) - #3.png"], []⟩ (by decide)).1⟩

/-- C7 (code bug witnessed): the `xy is var_combinations` identity test
compares a tuple against a function object and is always false, so
saving the default combination takes the non-default branch: with
default-descriptor entries #1 and #2 already present, the code names the
file `3 Simple Plot(s) - #1.png` with sequence number 1 — not a
`Default {Category}` descriptor with sequence number 3 as the claim
requires (even the unreachable branch would write
`Default Simple Plots`). -/
theorem claim_C7_failing_eval :
    xyIsDefaultCheck defaultXY = false
  ∧ (save_plots_step false defaultXY "01-01-2026 at 00:00:00"
      ⟨["Saved Simple Plots/Default Simple Plots - #1.png",
        "Saved Simple Plots/Default Simple Plots - #2.png"], []⟩).1.fileName
      = "3 Simple Plot(s) - #1.png"
  ∧ (save_plots_step false defaultXY "01-01-2026 at 00:00:00"
      ⟨["Saved Simple Plots/Default Simple Plots - #1.png",
        "Saved Simple Plots/Default Simple Plots - #2.png"], []⟩).1.pngId = 1 :=
  ⟨rfl, by decide, by decide⟩

/-- C8 (counterexample): with an empty directory, a non-default save of
2 pairs is named `2 Simple Plot(s) - #1.png` (capital `Simple`), not
`2 simple Plot(s) - #1.png` as the claim spells it. -/
theorem claim_C8_counterexample :
    (save_plots_step false
        [("Cerebrum Volume", "Cerebellum Volume"),
         ("Cerebrum Volume", "Cerebellum Surface Area")]
        "02-01-2026 at 00:00:00" ⟨[], []⟩).1.fileName ≠ "2 simple Plot(s) - #1.png" := by
  decide

/-- C8 (amended): with an empty directory, the first non-default save of
any 2 pairs in the `simple` category is named `2 Simple Plot(s) - #1.png`
and gets sequence number 1. -/
theorem claim_C8_amended (q1 q2 : String × String) (now : String) :
    (save_plots_step false [q1, q2] now ⟨[], []⟩).1.fileName = "2 Simple Plot(s) - #1.png"
  ∧ (save_plots_step false [q1, q2] now ⟨[], []⟩).1.pngId = 1 := by
  constructor
  · show countDesc false 2 ++ " - #" ++ toString (1 : Nat) ++ ".png" = "2 Simple Plot(s) - #1.png"
    rfl
  · rfl

/-- C9: manifest writes are append-only — the manifest file is opened in
append mode and receives exactly one chunk per allocation, so after any
sequence of `N` allocations the manifest equals the prior content
followed by `N` new entries, in allocation order; nothing is truncated,
removed or reordered. -/
theorem claim_C9_manifest_append (logged : Bool) :
    ∀ (calls : List (List (String × String) × String)) (d : DirState),
    ∃ added : List String,
      (runSaves logged calls d).manifest = d.manifest ++ added
        ∧ added.length = calls.length := by
  intro calls
  induction calls with
  | nil => intro d; exact ⟨[], by simp [runSaves]⟩
  | cons c rest ih =>
    intro d
    obtain ⟨xy, now⟩ := c
    obtain ⟨added, h1, h2⟩ := ih (save_plots_step logged xy now d).2
    refine ⟨(save_plots_step logged xy now d).1.manifestChunk :: added, ?_, by simp [h2]⟩
    rw [runSaves, h1]
    have hstep : (save_plots_step logged xy now d).2.manifest
        = d.manifest ++ [(save_plots_step logged xy now d).1.manifestChunk] := rfl
    rw [hstep, List.append_assoc, List.singleton_append]

/-! ### Helper lemmas about the color dictionaries -/

/-- Overwriting key `kk` in place does not change lookups of a different
key. -/
theorem find?_dictSet_map (d : ColorMap) {kk k : String} (v : String)
    (h : (kk == k) = false) :
    (d.map (fun p => if p.1 == kk then (kk, v) else p)).find? (fun p => p.1 == k)
      = d.find? (fun p => p.1 == k) := by
  induction d with
  | nil => rfl
  | cons q rest ih =>
    simp only [List.map_cons, List.find?_cons]
    by_cases hq : (q.1 == kk) = true
    · have hq1 : q.1 = kk := beq_iff_eq.mp hq
      rw [if_pos hq]
      have e1 : ((kk, v).1 == k) = false := h
      have e2 : (q.1 == k) = false := by rw [hq1]; exact h
      rw [e1, e2]
      exact ih
    · rw [if_neg hq]
      cases hk : (q.1 == k)
      · exact ih
      · rfl

/-- Setting key `kk` does not change lookups of a different key. -/
theorem dictGet_dictSet_of_ne (d : ColorMap) {kk k : String} (v : String)
    (h : (kk == k) = false) :
    dictGet (dictSet d kk v) k = dictGet d k := by
  unfold dictGet dictSet
  split
  · rw [find?_dictSet_map d v h]
  · rw [List.find?_append]
    have hs : List.find? (fun p => p.1 == k) [(kk, v)] = none := by
      rw [List.find?_cons_of_neg _ (by simp [h])]
      rfl
    rw [hs, Option.or_none]

/-- `update` does not change lookups of keys it does not mention. -/
theorem dictGet_dictUpdate_of_not_mem (cs : ColorMap) :
    ∀ (d : ColorMap) (k : String), dictHasKey cs k = false →
    dictGet (dictUpdate d cs) k = dictGet d k := by
  induction cs with
  | nil => intro d k _; rfl
  | cons p rest ih =>
    intro d k hk
    simp only [dictHasKey, List.any_cons, Bool.or_eq_false_iff] at hk
    obtain ⟨h1, h2⟩ := hk
    simp only [dictUpdate, List.foldl_cons]
    have htail := ih (dictSet d p.1 p.2) k (by simpa [dictHasKey] using h2)
    simp only [dictUpdate] at htail
    rw [htail]
    exact dictGet_dictSet_of_ne d p.2 h1

/-! ### Claim C10: color defaults -/

/-- C10: passing an explicit `colors` argument to `plot_variables` leaves
the module-level `new_defaults` unchanged after the call (the override is
merged into a copy), and so does omitting it; only `set_colors` mutates
the module state, and it merges its argument into the defaults rather
than replacing them: the updated state is exactly `update` of the old
defaults, and every key the argument does not mention keeps its old
value. -/
theorem claim_C10_colors (st : ModuleColorState) (cs : ColorMap) :
    (resolveColors st (some cs)).2 = st
  ∧ (resolveColors st none).2 = st
  ∧ (set_colors st cs).2.new_defaults = dictUpdate st.new_defaults cs
  ∧ ∀ k, dictHasKey cs k = false →
      dictGet ((set_colors st cs).2.new_defaults) k = dictGet st.new_defaults k := by
  refine ⟨rfl, rfl, rfl, fun k hk => ?_⟩
  exact dictGet_dictUpdate_of_not_mem cs st.new_defaults k hk

/-- C10 (witness): overriding the Hominidae color in a `plot_variables`
call leaves the module defaults as they were, and a `set_colors` of the
same override keeps the untouched Hylobatidae entry. -/
theorem claim_C10_witness :
    (resolveColors ⟨DEFAULT_COLORS⟩ (some [("Hominidae", "lime")])).2 = ⟨DEFAULT_COLORS⟩
  ∧ dictGet ((set_colors ⟨DEFAULT_COLORS⟩ [("Hominidae", "lime")]).2.new_defaults) "Hylobatidae"
      = dictGet DEFAULT_COLORS "Hylobatidae" :=
  ⟨(claim_C10_colors ⟨DEFAULT_COLORS⟩ [("Hominidae", "lime")]).1,
   (claim_C10_colors ⟨DEFAULT_COLORS⟩ [("Hominidae", "lime")]).2.2.2 "Hylobatidae" (by decide)⟩

end CerebellumProject
